import Mathlib

/-!
Shallow embedding of the tsound real-time audio streaming engine.

Numbers that JavaScript holds in IEEE doubles are modelled as exact
rationals (ℚ); the 32-bit typed-array stores wrap explicitly.

Sources embedded here:
* the shared-memory worklet variant (`createDynamicAuidoPlayer` with
  `SharedArrayBuffer` state): sample quantizer, `OutputProcessor.process`,
  `queueMoreContent`;
* the message-passing worklet variant (`src/audio/streaming.ts`):
  `OutputProcessor.port.onmessage`;
* `Mixer` / `MixerTrack` / `ScrubPlayer` from `index.js`.
-/

namespace TSound

/-! Part: Sample quantizer (inlined in `queueMoreContent` and `process`) -/

def INT32_MIN : ℤ := -2147483648

def INT32_MAX : ℤ := 2147483647

/-- Encoder from `queueMoreContent`:
`t = (1 + sample) / 2; tInt = Math.floor(t * (INT32_MAX - INT32_MIN)); tInt + INT32_MIN`. -/
def encodeSample (x : ℚ) : ℤ :=
  ⌊(1 + x) / 2 * ((INT32_MAX : ℚ) - (INT32_MIN : ℚ))⌋ + INT32_MIN

/-- Decoder from `OutputProcessor.process`:
`t = (int32value - INT32_MIN) / (INT32_MAX - INT32_MIN); t * 2 - 1`. -/
def decodeSample (v : ℤ) : ℚ :=
  ((v : ℚ) - (INT32_MIN : ℚ)) / ((INT32_MAX : ℚ) - (INT32_MIN : ℚ)) * 2 - 1

/-- A store into a `Uint32Array` slot keeps the value modulo 2^32. -/
def store32 (v : ℕ) : ℕ := v % 4294967296

/-- A store into an `Int32Array` slot wraps into `[-2^31, 2^31)`. -/
def toInt32 (v : ℤ) : ℤ := (v + 2147483648) % 4294967296 - 2147483648

/-! Part: Shared-memory worklet state (`createDynamicAuidoPlayer` variant)

The machine-state `Uint32Array` has exactly four slots
(`varMap = {playhead: 0, writeHead: 1, numQueuedSamples: 2, contentMutexIsLocked: 3}`);
the content `Int32Array` (`sharedArray`) has `maxQueuedSamples` slots. -/

structure ProcState where
  cap : ℕ
  hasSharedBuffer : Bool
  hasMachineState : Bool
  hasVarMap : Bool
  content : List ℤ
  playhead : ℕ
  writeHead : ℕ
  numQueued : ℕ
  lock : ℕ
deriving DecidableEq

/-- Read of `this.sharedArrayMachineState[j]`: the machine-state array has four
entries; an out-of-bounds typed-array read yields `undefined`, modelled as
`none` (it poisons the following float arithmetic to NaN). -/
def machineStateRead (s : ProcState) (j : ℕ) : Option ℤ :=
  if j = 0 then some (s.playhead : ℤ)
  else if j = 1 then some (s.writeHead : ℤ)
  else if j = 2 then some (s.numQueued : ℤ)
  else if j = 3 then some (s.lock : ℤ)
  else none

/-- Decode step of the drain loop; `none` (= NaN) propagates. -/
def decodeRead (o : Option ℤ) : Option ℚ := o.map decodeSample

structure ProcResult where
  state : ProcState
  chan : List (Option ℚ)
  keepAlive : Bool
deriving DecidableEq

/-- Main branch of `OutputProcessor.process` (shared-memory variant), with the
output channel's prior contents passed in as `chan0`.  Note the source reads
the sample at line
`const int32value = this.sharedArrayMachineState[(playhead + i) % this.maxQueuedSamples]`
from the machine-state array. `numQueued - n` models
`Math.max(0, samplesLeft - outputChannel.length)` (ℕ subtraction truncates at
0 identically). -/
def processRun (s : ProcState) (chan0 : List (Option ℚ)) : ProcResult :=
  let n := chan0.length
  let samplesLeft := s.numQueued
  let numToFill := min n samplesLeft
  let playhead := s.playhead
  { state :=
      { s with
        playhead := store32 ((playhead + numToFill) % s.cap)
        numQueued := store32 (samplesLeft - n) }
    chan :=
      (List.range n).map (fun i =>
        if i < numToFill then
          decodeRead (machineStateRead s ((playhead + i) % s.cap))
        else some 0)
    keepAlive := true }

/-- `OutputProcessor.process` of the shared-memory variant: early-returns
`true` while any of the init fields is still null, or while the advisory
lock is held; otherwise runs the drain. -/
def process (s : ProcState) (chan0 : List (Option ℚ)) : ProcResult :=
  if s.hasSharedBuffer = false then ⟨s, chan0, true⟩
  else if s.hasMachineState = false then ⟨s, chan0, true⟩
  else if s.hasVarMap = false then ⟨s, chan0, true⟩
  else if s.lock = 1 then ⟨s, chan0, true⟩
  else processRun s chan0

/-- The write loop of `queueMoreContent`: for each `i`,
`sharedArray[(writeHead + i) % maxQueuedSamples] = int32Value`. -/
def writeChunk (cap : ℕ) (wh : ℕ) (chunk : List ℚ) (content : List ℤ) : List ℤ :=
  chunk.enum.foldl
    (fun acc p => acc.set ((wh + p.1) % cap) (toInt32 (encodeSample p.2)))
    content

/-- `queueMoreContent` (shared-memory variant): re-anchors the write head to
the playhead when the queue was empty, locks, encodes and writes the chunk,
unlocks, then bumps `numQueuedSamples` and `writeHead`.  There is no capacity
check anywhere in this function. -/
def queueMoreContent (s : ProcState) (chunk : List ℚ) : ProcState :=
  let wh0 := if s.numQueued = 0 then s.playhead else s.writeHead
  { s with
    content := writeChunk s.cap wh0 chunk s.content
    lock := 0
    numQueued := store32 (s.numQueued + chunk.length)
    writeHead := store32 ((wh0 + chunk.length) % s.cap) }

/-- Ring-buffer invariant from the spec: `0 ≤ queuedCount ≤ capacity` and
`writehead ≡ playhead + queuedCount (mod capacity)`. -/
def RingInv (s : ProcState) : Prop :=
  s.numQueued ≤ s.cap ∧ s.writeHead % s.cap = (s.playhead + s.numQueued) % s.cap

instance (s : ProcState) : Decidable (RingInv s) := by
  unfold RingInv; infer_instance

/-- A fresh, fully initialized shared-memory worklet state of capacity 8. -/
def freshState8 : ProcState :=
  { cap := 8
    hasSharedBuffer := true
    hasMachineState := true
    hasVarMap := true
    content := List.replicate 8 0
    playhead := 0
    writeHead := 0
    numQueued := 0
    lock := 0 }

/-! Part: Message-passing worklet variant (`src/audio/streaming.ts`)

Its `OutputProcessor` keeps a `Float32Array` of raw samples plus
`playHead`, `writeHead`, `remainingQueuedContent`; chunks arrive through
`port.onmessage`. -/

structure WState where
  cap : ℕ
  buffer : List ℚ
  playHead : ℕ
  writeHead : ℕ
  remaining : ℕ
deriving DecidableEq

inductive WError where
  /-- thrown when a single message exceeds `maxQueuedSamples` -/
  | oversizeMessage : WError
  /-- thrown mid-loop when `remainingQueuedContent` reaches `maxQueuedSamples` -/
  | queueOverflow : WError
deriving DecidableEq

/-- Loop body of `onmessage`: writes `data[i]` at
`(playHead + remainingQueuedContent) % cap`, increments the count, then
additionally writes `data[i]` at
`(writeHead + remainingQueuedContent + i) % cap` (with the already
incremented count); once the count reaches capacity it throws.  The
statements after each `throw` in the source (resetting the heads, the
buffer and the count) are unreachable, so a throw leaves the state as it
is at that moment. -/
def onmessageLoop (s : WState) : ℕ → List ℚ → WState × Option WError
  | _, [] => (s, none)
  | i, d :: rest =>
    if s.remaining < s.cap then
      let s1 : WState :=
        { s with
          buffer := s.buffer.set ((s.playHead + s.remaining) % s.cap) d
          remaining := s.remaining + 1 }
      let s2 : WState :=
        { s1 with
          buffer := s1.buffer.set ((s1.writeHead + s1.remaining + i) % s1.cap) d }
      onmessageLoop s2 (i + 1) rest
    else (s, some WError.queueOverflow)

/-- `OutputProcessor.port.onmessage` of the message-passing variant.  The
result pairs the processor state after the call with the error thrown, if
any; the reset statements placed after the throws are dead code. -/
def onmessage (s : WState) (data : List ℚ) : WState × Option WError :=
  if data.length > s.cap then (s, some WError.oversizeMessage)
  else onmessageLoop s 0 data

/-! Part: Mixer (`index.js`) -/

structure MixerTrack where
  volume : ℚ
  data : List ℚ
deriving DecidableEq

structure Mixer where
  bufferSize : ℕ
  data : List ℚ
  tracks : List MixerTrack
deriving DecidableEq

def Mixer.addTrack (m : Mixer) (t : MixerTrack) : Mixer :=
  { m with tracks := m.tracks ++ [t] }

/-- One sample of `Mixer.mix`:
`total = Σ_j tracks[j].data[i] * tracks[j].volume`, then
`if (total < -1) total = -1; if (total > 1) total = 1`.  The theorems
using it assume every track buffer covers index `i`, so the `getD`
default never fires (a JS out-of-bounds read would be NaN instead). -/
def mixSample (tracks : List MixerTrack) (i : ℕ) : ℚ :=
  let total := tracks.foldl (fun acc t => acc + t.data.getD i 0 * t.volume) 0
  let t1 := if total < -1 then -1 else total
  if t1 > 1 then 1 else t1

/-- `Mixer.mix`: recomputes every entry of the mixer's own output buffer. -/
def Mixer.mix (m : Mixer) : Mixer :=
  { m with data := (List.range m.bufferSize).map (fun i => mixSample m.tracks i) }

/-- Two tracks, each holding constant 1.0 with gain 1.0, added in order. -/
def mixEx1 : Mixer :=
  (Mixer.addTrack
    (Mixer.addTrack ⟨4, List.replicate 4 0, []⟩ ⟨1, List.replicate 4 1⟩)
    ⟨1, List.replicate 4 1⟩)

/-- Two tracks, each holding constant 1.0 with gain 0.5, added in order. -/
def mixEx2 : Mixer :=
  (Mixer.addTrack
    (Mixer.addTrack ⟨4, List.replicate 4 0, []⟩ ⟨1 / 2, List.replicate 4 1⟩)
    ⟨1 / 2, List.replicate 4 1⟩)

/-! Part: ScrubPlayer (`index.js`) -/

structure ScrubPlayer where
  current : ℚ
  initial : ℚ
  /-- the property the misspelled assignment `this.inital = ...` in
  `start()` creates; absent (`none`) until `start` runs -/
  inital : Option ℚ
  running : Bool
  timeInterval : ℚ
deriving DecidableEq

/-- The `ScrubPlayer` constructor: `current = 0`, `initial = 0`,
`running = false`, `timeInterval = bufferSize / sampleRate`. -/
def ScrubPlayer.mk0 (bufferSize sampleRate : ℚ) : ScrubPlayer :=
  { current := 0
    initial := 0
    inital := none
    running := false
    timeInterval := bufferSize / sampleRate }

/-- `start()` as written: `this.running = true; this.inital = now;
this.current = this.initial` — the second assignment targets the
misspelled `inital`, so `initial` keeps its old value. -/
def ScrubPlayer.start (s : ScrubPlayer) (now : ℚ) : ScrubPlayer :=
  { s with running := true, inital := some now, current := s.initial }

/-- One `processFrame` tick at time `now`: when running and
`now - current ≥ timeInterval` or `current == initial`, emits the callback
argument `current - initial` and sets `current = now`. -/
def ScrubPlayer.processFrame (s : ScrubPlayer) (now : ℚ) : ScrubPlayer × Option ℚ :=
  if s.running then
    if s.timeInterval ≤ now - s.current ∨ s.current = s.initial then
      ({ s with current := now }, some (s.current - s.initial))
    else (s, none)
  else (s, none)

def ScrubPlayer.stop (s : ScrubPlayer) : ScrubPlayer :=
  { s with running := false }

def ScrubPlayer.scrub (s : ScrubPlayer) (time : ℚ) : ScrubPlayer :=
  { s with current := time }

/-! Part: helper lemmas -/

lemma store32_eq_of_lt {v : ℕ} (h : v < 4294967296) : store32 v = v :=
  Nat.mod_eq_of_lt h

lemma process_passthrough (s : ProcState) (chan : List (Option ℚ))
    (h : s.hasSharedBuffer = false ∨ s.hasMachineState = false
      ∨ s.hasVarMap = false ∨ s.lock = 1) :
    process s chan = ⟨s, chan, true⟩ := by
  unfold process
  split_ifs <;> first | rfl | simp_all

lemma process_run_eq (s : ProcState) (chan : List (Option ℚ))
    (hb : s.hasSharedBuffer = true) (hm : s.hasMachineState = true)
    (hv : s.hasVarMap = true) (hl : s.lock ≠ 1) :
    process s chan = processRun s chan := by
  unfold process
  split_ifs <;> simp_all

lemma getD_map_range {α : Type} (n i : ℕ) (f : ℕ → α) (d : α) (h : i < n) :
    ((List.range n).map f).getD i d = f i := by
  rw [List.getD_eq_getElem?_getD, List.getElem?_map, List.getElem?_range h]
  rfl

lemma decode_encode_eq (x : ℚ) :
    decodeSample (encodeSample x)
      = (⌊(1 + x) / 2 * (4294967295 : ℚ)⌋ : ℚ) * 2 / 4294967295 - 1 := by
  have hc : ((INT32_MAX : ℚ) - (INT32_MIN : ℚ)) = 4294967295 := by
    norm_num [INT32_MAX, INT32_MIN]
  rw [decodeSample, encodeSample, hc]
  push_cast [INT32_MIN]
  ring

lemma foldl_add_map (l : List MixerTrack) (f : MixerTrack → ℚ) (a : ℚ) :
    l.foldl (fun acc t => acc + f t) a = a + (l.map f).sum := by
  induction l generalizing a with
  | nil => simp
  | cons t ts ih => simp [ih]; ring

lemma mixSample_eq (tracks : List MixerTrack) (i : ℕ) :
    mixSample tracks i
      = max (-1) (min 1 ((tracks.map (fun t => t.data.getD i 0 * t.volume)).sum)) := by
  unfold mixSample
  rw [foldl_add_map, zero_add]
  dsimp only
  set x := (tracks.map (fun t => t.data.getD i 0 * t.volume)).sum with hx
  split_ifs with h1 h2 h2
  · exact absurd h2 (by norm_num)
  · rw [min_eq_right (by linarith), max_eq_left (by linarith)]
  · rw [min_eq_left (by linarith), max_eq_right (by norm_num)]
  · rw [min_eq_right (by linarith), max_eq_right (by linarith)]

/-! Part: the claims -/

/-- C1: the claim says every enqueued chunk is reproduced by the drain within
one quantization step.  The code violates it: the drain loop reads
`this.sharedArrayMachineState` (the four-slot head/count/lock array) instead
of `this.sharedArray` (the content buffer), so it returns the decoded
*playhead* value, not the enqueued sample.  Concretely: enqueue the single
sample `0.5` into a fresh capacity-8 buffer, then drain one sample with the
lock free: the drain emits `1/4294967295` (about 2.3e-10), while the content
buffer does hold the correct encoding (whose decode `2147483647/4294967295`
is within one step of `0.5`); the emitted value is off by far more than one
step. -/
theorem C1_drainReadsWrongArray :
    (process (queueMoreContent freshState8 [1 / 2]) [some 0]).chan
        = [some (1 / 4294967295)]
    ∧ decodeSample ((queueMoreContent freshState8 [1 / 2]).content.getD 0 0)
        = 2147483647 / 4294967295
    ∧ |(2147483647 : ℚ) / 4294967295 - 1 / 2| ≤ 2 / 4294967295
    ∧ 2 / 4294967295 < |(1 : ℚ) / 4294967295 - 1 / 2| := by
  refine ⟨?_, ?_, ?_, ?_⟩
  · norm_num [process, processRun, queueMoreContent, freshState8, writeChunk,
      machineStateRead, decodeRead, decodeSample, store32, INT32_MIN, INT32_MAX,
      List.range_succ]
  · norm_num [queueMoreContent, freshState8, writeChunk, List.enum, toInt32,
      decodeSample, encodeSample, INT32_MIN, INT32_MAX]
  · rw [abs_le]; constructor <;> norm_num
  · rw [abs_sub_comm, abs_of_nonneg (by norm_num)]
    norm_num

/-- C2: the claim says an enqueue that does not fit fails with no partial
write and resets the buffer to the empty state.  The code violates it: in
`streaming.ts` the reset statements are placed after the `throw`, so they are
dead code — an oversize message leaves the prior nonempty state untouched,
and a capacity-exceeded message throws mid-loop leaving a partial write; and
the shared-memory `queueMoreContent` has no capacity check at all, silently
letting `numQueuedSamples` exceed the capacity with no error. -/
theorem C2_overflowNeverResets :
    (onmessage ⟨2, [5, 6], 1, 1, 1⟩ [9, 9, 9]
        = (⟨2, [5, 6], 1, 1, 1⟩, some WError.oversizeMessage))
    ∧ (onmessage ⟨2, [0, 0], 0, 0, 1⟩ [7, 8]
        = (⟨2, [7, 7], 0, 0, 2⟩, some WError.queueOverflow))
    ∧ (queueMoreContent { freshState8 with cap := 4, content := List.replicate 4 0 }
        (List.replicate 5 0)).numQueued = 5 := by
  refine ⟨?_, ?_, ?_⟩
  · norm_num [onmessage]
  · norm_num [onmessage, onmessageLoop]
  · norm_num [queueMoreContent, freshState8, store32]

/-- C3 counterexample: the claim says every enqueue preserves the ring-buffer
invariant, but `queueMoreContent` has no capacity guard: enqueueing a 5-sample
chunk into an empty capacity-4 buffer drives `queuedCount` to 5 > 4. -/
theorem C3_counterexample :
    RingInv { freshState8 with cap := 4, content := List.replicate 4 0 }
    ∧ ¬ RingInv (queueMoreContent
        { freshState8 with cap := 4, content := List.replicate 4 0 }
        (List.replicate 5 0)) := by
  decide

/-- C3 (amended): with a positive capacity below the `Uint32` range, an
enqueue whose chunk still fits (`queuedCount + chunk.length ≤ capacity`)
preserves the ring-buffer invariant — including via the re-anchoring of
`writehead` to `playhead` when the queue was empty — and every drain call
preserves it unconditionally. -/
theorem C3_invariantPreserved (s : ProcState) (chunk : List ℚ) (chan : List (Option ℚ))
    (hcap : 0 < s.cap) (hcap32 : s.cap < 4294967296) (hinv : RingInv s) :
    (s.numQueued + chunk.length ≤ s.cap → RingInv (queueMoreContent s chunk))
    ∧ RingInv (process s chan).state := by
  obtain ⟨hq, hw⟩ := hinv
  constructor
  · intro hfit
    simp only [queueMoreContent, RingInv]
    rw [store32_eq_of_lt (lt_of_le_of_lt hfit hcap32),
      store32_eq_of_lt (lt_trans (Nat.mod_lt _ hcap) hcap32)]
    refine ⟨hfit, ?_⟩
    rw [Nat.mod_mod_of_dvd _ dvd_rfl]
    by_cases hq0 : s.numQueued = 0
    · simp only [hq0, if_true]
      rw [Nat.zero_add]
    · simp only [hq0, if_false]
      rw [← Nat.mod_add_mod, hw, Nat.mod_add_mod, ← Nat.add_assoc]
  · by_cases hb : s.hasSharedBuffer = false
    · rw [process_passthrough s chan (Or.inl hb)]; exact ⟨hq, hw⟩
    by_cases hm : s.hasMachineState = false
    · rw [process_passthrough s chan (Or.inr (Or.inl hm))]; exact ⟨hq, hw⟩
    by_cases hv : s.hasVarMap = false
    · rw [process_passthrough s chan (Or.inr (Or.inr (Or.inl hv)))]; exact ⟨hq, hw⟩
    by_cases hl : s.lock = 1
    · rw [process_passthrough s chan (Or.inr (Or.inr (Or.inr hl)))]; exact ⟨hq, hw⟩
    rw [process_run_eq s chan (by simpa using hb) (by simpa using hm)
      (by simpa using hv) hl]
    simp only [processRun, RingInv]
    rw [store32_eq_of_lt (lt_of_le_of_lt (le_trans (Nat.sub_le _ _) hq) hcap32),
      store32_eq_of_lt (lt_trans (Nat.mod_lt _ hcap) hcap32)]
    refine ⟨le_trans (Nat.sub_le _ _) hq, ?_⟩
    rw [Nat.mod_add_mod, Nat.add_assoc]
    have hmq : min chan.length s.numQueued + (s.numQueued - chan.length) = s.numQueued := by
      omega
    rw [hmq]
    exact hw

/-- C3 witness: the amended invariant-preservation theorem applied to the
fresh capacity-8 state, a one-sample chunk, and an empty quantum. -/
theorem C3_invariantPreserved_witness :
    (freshState8.numQueued + ([(0 : ℚ)]).length ≤ freshState8.cap →
      RingInv (queueMoreContent freshState8 [(0 : ℚ)]))
    ∧ RingInv (process freshState8 []).state :=
  C3_invariantPreserved freshState8 [(0 : ℚ)] [] (by decide) (by decide) (by decide)

/-- C4: drain on an unlocked, initialized buffer with `queuedCount` below the
requested quantum length emits exactly `queuedCount` decode-path samples
followed by zeros up to the quantum length, and zeroes the queued count
afterwards. -/
theorem C4_underflowSilent (s : ProcState) (chan : List (Option ℚ))
    (hb : s.hasSharedBuffer = true) (hm : s.hasMachineState = true)
    (hv : s.hasVarMap = true) (hl : s.lock ≠ 1)
    (hq : s.numQueued < chan.length) :
    (process s chan).chan.length = chan.length
    ∧ (∀ i, i < s.numQueued →
        (process s chan).chan.getD i none
          = decodeRead (machineStateRead s ((s.playhead + i) % s.cap)))
    ∧ (∀ i, s.numQueued ≤ i → i < chan.length →
        (process s chan).chan.getD i none = some 0)
    ∧ (process s chan).state.numQueued = 0 := by
  rw [process_run_eq s chan hb hm hv hl]
  have hmin : min chan.length s.numQueued = s.numQueued := min_eq_right (le_of_lt hq)
  refine ⟨?_, ?_, ?_, ?_⟩
  · simp [processRun]
  · intro i hi
    simp only [processRun]
    rw [getD_map_range _ _ _ _ (lt_trans hi hq), hmin, if_pos hi]
  · intro i h1 h2
    simp only [processRun]
    rw [getD_map_range _ _ _ _ h2, hmin, if_neg (Nat.not_lt.mpr h1)]
  · simp [processRun, store32, Nat.sub_eq_zero_of_le (le_of_lt hq)]

/-- C4 witness: a capacity-8 state holding one queued sample, drained with a
two-sample quantum. -/
theorem C4_underflowSilent_witness :
    (process { freshState8 with numQueued := 1 } [none, none]).chan.length = 2
    ∧ (process { freshState8 with numQueued := 1 } [none, none]).chan.getD 1 none = some 0
    ∧ (process { freshState8 with numQueued := 1 } [none, none]).state.numQueued = 0 := by
  obtain ⟨h1, _, h3, h4⟩ :=
    C4_underflowSilent { freshState8 with numQueued := 1 } [none, none]
      (by decide) (by decide) (by decide) (by decide) (by decide)
  exact ⟨h1, h3 1 (by decide) (by decide), h4⟩

/-- C5: while the advisory lock is held, the render callback leaves the whole
shared state (heads, count, lock flag, stored samples) and the output channel
untouched and just keeps the processor alive — the quantum stays whatever it
was (silence), with no waiting. -/
theorem C5_lockedNoEffect (s : ProcState) (chan : List (Option ℚ)) (h : s.lock = 1) :
    (process s chan).state = s ∧ (process s chan).chan = chan
    ∧ (process s chan).keepAlive = true := by
  rw [process_passthrough s chan (Or.inr (Or.inr (Or.inr h)))]
  exact ⟨rfl, rfl, rfl⟩

/-- C5 witness: the locked capacity-8 state with a one-sample quantum. -/
theorem C5_lockedNoEffect_witness :
    (process { freshState8 with lock := 1 } [some 0]).state
        = { freshState8 with lock := 1 }
    ∧ (process { freshState8 with lock := 1 } [some 0]).chan = [some 0]
    ∧ (process { freshState8 with lock := 1 } [some 0]).keepAlive = true :=
  C5_lockedNoEffect { freshState8 with lock := 1 } [some 0] (by decide)

/-- C6 counterexample: the claim bounds the round-trip error by `2 / 2^32`,
but the code divides by `INT32_MAX - INT32_MIN = 2^32 - 1`, so the true
quantization step is the slightly larger `2 / (2^32 - 1)`: at the rational
input below (inside `[-1, 1]`) the error exceeds `2 / 2^32`. -/
theorem C6_counterexample :
    -1 ≤ ((2 ^ 33 - 1) / (2 ^ 32 * (2 ^ 32 - 1)) - 1 : ℚ)
    ∧ ((2 ^ 33 - 1) / (2 ^ 32 * (2 ^ 32 - 1)) - 1 : ℚ) ≤ 1
    ∧ 2 / 2 ^ 32
        < |decodeSample (encodeSample ((2 ^ 33 - 1) / (2 ^ 32 * (2 ^ 32 - 1)) - 1 : ℚ))
            - ((2 ^ 33 - 1) / (2 ^ 32 * (2 ^ 32 - 1)) - 1 : ℚ)| := by
  refine ⟨by norm_num, by norm_num, ?_⟩
  have he : encodeSample ((2 ^ 33 - 1) / (2 ^ 32 * (2 ^ 32 - 1)) - 1 : ℚ) = -2147483648 := by
    norm_num [encodeSample, INT32_MIN, INT32_MAX]
  have hd : decodeSample (-2147483648) = -1 := by
    norm_num [decodeSample, INT32_MIN, INT32_MAX]
  rw [he, hd, abs_sub_comm, abs_of_nonneg (by norm_num)]
  norm_num

/-- C6 (amended): for every rational `x` in `[-1, 1]` the quantizer round
trip satisfies `|decode(encode(x)) - x| ≤ 2 / (2^32 - 1)`, one quantization
step of the map that spreads `[-1, 1]` over `INT32_MAX - INT32_MIN = 2^32 - 1`
equal intervals. -/
theorem C6_roundTripStep (x : ℚ) (hlo : -1 ≤ x) (hhi : x ≤ 1) :
    |decodeSample (encodeSample x) - x| ≤ 2 / (2 ^ 32 - 1) := by
  have hfr1 := Int.fract_nonneg ((1 + x) / 2 * (4294967295 : ℚ))
  have hfr2 := Int.fract_lt_one ((1 + x) / 2 * (4294967295 : ℚ))
  have hfl := Int.floor_add_fract ((1 + x) / 2 * (4294967295 : ℚ))
  have hkey : decodeSample (encodeSample x) - x
      = -(2 * Int.fract ((1 + x) / 2 * (4294967295 : ℚ)) / 4294967295) := by
    rw [decode_encode_eq]
    have hfl' : (⌊(1 + x) / 2 * (4294967295 : ℚ)⌋ : ℚ)
        = (1 + x) / 2 * 4294967295 - Int.fract ((1 + x) / 2 * (4294967295 : ℚ)) := by
      linarith
    rw [hfl']
    ring
  rw [hkey, abs_neg,
    abs_of_nonneg (by positivity : (0 : ℚ) ≤ 2 * Int.fract ((1 + x) / 2 * (4294967295 : ℚ)) / 4294967295)]
  rw [show ((2 : ℚ) ^ 32 - 1) = 4294967295 by norm_num]
  rw [div_le_div_iff₀ (by norm_num) (by norm_num)]
  nlinarith [hfr2]

/-- C6 witness: the amended round-trip bound at `x = 0`. -/
theorem C6_roundTripStep_witness :
    -1 ≤ (0 : ℚ) ∧ (0 : ℚ) ≤ 1
    ∧ |decodeSample (encodeSample 0) - 0| ≤ 2 / (2 ^ 32 - 1) :=
  ⟨by norm_num, by norm_num, C6_roundTripStep 0 (by norm_num) (by norm_num)⟩

/-- C7: the render callback is total: for every state of the shared variables
and every quantum, it returns keep-alive `true` and an output of exactly the
requested quantum length — there is no error path. -/
theorem C7_renderTotal (s : ProcState) (chan : List (Option ℚ)) :
    (process s chan).keepAlive = true ∧ (process s chan).chan.length = chan.length := by
  unfold process processRun
  split_ifs <;> simp

/-- C8: the claim says `start()` sets `anchorTime = currentTime = now()` and
each fired tick passes `currentTime - anchorTime`, the elapsed time since
start.  The code violates it: `start()` assigns the misspelled property
`inital`, so the anchor `initial` stays `0` and `current` is set to `0`
rather than `now`.  Starting at time 100 and ticking at 100 and 100.2, the
second fired tick passes the absolute timestamp `100` instead of the elapsed
time `0.2` (or `0` by the claim's own formula). -/
theorem C8_anchorTypo :
    (ScrubPlayer.start (ScrubPlayer.mk0 8192 44100) 100).initial = 0
    ∧ (ScrubPlayer.start (ScrubPlayer.mk0 8192 44100) 100).current = 0
    ∧ (ScrubPlayer.start (ScrubPlayer.mk0 8192 44100) 100).inital = some 100
    ∧ (((ScrubPlayer.start (ScrubPlayer.mk0 8192 44100) 100).processFrame 100).1.processFrame
          (501 / 5)).2 = some 100 := by
  refine ⟨rfl, rfl, rfl, ?_⟩
  norm_num [ScrubPlayer.processFrame, ScrubPlayer.start, ScrubPlayer.mk0]

/-- C9: `mix()` stores, for every index below the mixer's buffer size, the
insertion-ordered weighted sum of the track buffers hard-clamped to
`[-1, 1]`; two unit tracks at gain 1 clip to 1, and two unit tracks at gain
0.5 land exactly at 1. -/
theorem C9_mixClamp :
    (∀ (m : Mixer) (i : ℕ),
        (∀ t ∈ m.tracks, m.bufferSize ≤ t.data.length) → i < m.bufferSize →
        (Mixer.mix m).data.getD i 0
          = max (-1) (min 1 ((m.tracks.map (fun t => t.data.getD i 0 * t.volume)).sum)))
    ∧ (Mixer.mix mixEx1).data = [1, 1, 1, 1]
    ∧ (Mixer.mix mixEx2).data = [1, 1, 1, 1] := by
  refine ⟨?_,
    by norm_num [Mixer.mix, mixEx1, Mixer.addTrack, mixSample, List.range_succ],
    by norm_num [Mixer.mix, mixEx2, Mixer.addTrack, mixSample, List.range_succ]⟩
  intro m i _ hi
  simp only [Mixer.mix]
  rw [getD_map_range _ _ _ _ hi, mixSample_eq]

/-- C9 witness: the general clamp formula applied to the two-track gain-1
example at index 0. -/
theorem C9_mixClamp_witness :
    (Mixer.mix mixEx1).data.getD 0 0
      = max (-1) (min 1 ((mixEx1.tracks.map (fun t => t.data.getD 0 0 * t.volume)).sum)) :=
  C9_mixClamp.1 mixEx1 0 (by decide) (by decide)

/-- C10: while any of the worklet's init fields (shared buffer, machine-state
buffer, varMap) is still null, the render callback returns `true` and leaves
both the shared state and the output channel untouched. -/
theorem C10_uninitKeepsAlive (s : ProcState) (chan : List (Option ℚ))
    (h : s.hasSharedBuffer = false ∨ s.hasMachineState = false ∨ s.hasVarMap = false) :
    process s chan = ⟨s, chan, true⟩ :=
  process_passthrough s chan (by tauto)

/-- C10 witness: the capacity-8 state whose shared buffer never arrived. -/
theorem C10_uninitKeepsAlive_witness :
    process { freshState8 with hasSharedBuffer := false } [none]
      = ⟨{ freshState8 with hasSharedBuffer := false }, [none], true⟩ :=
  C10_uninitKeepsAlive { freshState8 with hasSharedBuffer := false } [none]
    (Or.inl rfl)

end TSound
